import Mathlib

/-!
Shallow embedding of the SHAP dependence-plot utilities of the
dash_tutorial repository (pipelines/shap_plot/plot_utils.py and demo.py),
together with proofs of the specification's claims about them.

Conventions of the embedding:
* pandas Series / numpy arrays become Lean lists; numeric cells are `ℚ`;
  a missing cell (NaN, which pandas grouping treats as missing) is `none` in
  an `Option`-valued column.
* pandas `groupby(keys).median()` becomes `groupMedian`: rows whose key is
  missing are dropped (pandas `dropna=True` default), the distinct remaining
  keys are sorted ascending (pandas `sort=True` default) and each group is
  reduced to the median of its values.
* python `dict` objects (insertion ordered) become association lists.
* a python exception (KeyError / ValueError / IndexError / TypeError)
  becomes `none` or `Except.error`.
-/

namespace DashShap

/-- Distinct values of a list in order of first appearance
(pandas `Series.unique`). -/
def uniqueVals {α : Type} [DecidableEq α] : List α → List α
  | [] => []
  | x :: xs => x :: (uniqueVals xs).filter (fun y => decide (y ≠ x))

/-- Insert an element into a list, before the first element it compares
below or equal to. -/
def insertSorted {α : Type} (le : α → α → Bool) (x : α) : List α → List α
  | [] => [x]
  | y :: ys => if le x y then x :: y :: ys else y :: insertSorted le x ys

/-- Insertion sort with an explicit boolean comparator. -/
def sortBy {α : Type} (le : α → α → Bool) (l : List α) : List α :=
  l.foldr (insertSorted le) []

/-- Median of a list of rationals, as pandas computes it on a group:
sort ascending, take the middle element for odd length, the mean of the two
middle elements for even length. -/
def median (xs : List ℚ) : ℚ :=
  let s := sortBy (fun a b => decide (a ≤ b)) xs
  let n := s.length
  if n % 2 = 1 then s.getD (n / 2) 0
  else (s.getD (n / 2 - 1) 0 + s.getD (n / 2) 0) / 2

/-- pandas `DataFrame.groupby(key).median()` on rows of (key, value):
rows with a missing key are dropped, the distinct remaining keys are listed
in ascending order, and each key is paired with the median of the values of
exactly the rows carrying that key. -/
def groupMedian {κ : Type} [DecidableEq κ] (le : κ → κ → Bool)
    (rows : List (Option κ × ℚ)) : List (κ × ℚ) :=
  (sortBy le (uniqueVals (rows.filterMap Prod.fst))).map
    (fun k => (k, median ((rows.filter (fun r => decide (r.1 = some k))).map Prod.snd)))

/-- Code-point comparison of strings (the order python uses on str values,
and pandas uses to sort string group keys). -/
def charListLe : List Char → List Char → Bool
  | [], _ => true
  | _ :: _, [] => false
  | a :: as, b :: bs =>
    if a.toNat < b.toNat then true
    else if b.toNat < a.toNat then false
    else charListLe as bs

def strLe (a b : String) : Bool := charListLe a.data b.data

/-- Ascending comparison of rationals as a boolean. -/
def ratLe (a b : ℚ) : Bool := decide (a ≤ b)

/-- Lexicographic comparison on (feature value, segment value) group keys,
the order in which pandas lists the groups of `groupby([feature, segment])`. -/
def pairLe {β : Type} [DecidableEq β] (leB : β → β → Bool) (a b : ℚ × β) : Bool :=
  decide (a.1 < b.1) || (decide (a.1 = b.1) && leB a.2 b.2)

/-- A python value appearing as a segment key: either a raw number, or a
pandas Interval (lo, hi] produced by `pd.qcut`.  Python equality between a
number and an Interval is always `False`, which the inductive separation of
constructors models. -/
inductive PyVal where
  | num (q : ℚ)
  | interval (lo hi : ℚ)
deriving DecidableEq

/-!
## `_calculate_median_shap_df` (plot_utils.py lines 209-259)

The working table `contri_df` has one row per input row, holding the feature
value, optionally the segment value, and the shap value; `groupby` then
aggregates each group to its median.
-/

/-- The grouping key of one row of `contri_df`: present only when the feature
value and the segment value are both present (pandas drops rows with a NaN
group key). -/
def rowKey {β : Type} : Option ℚ × Option β → Option (ℚ × β)
  | (some a, some b) => some (a, b)
  | _ => none

/-- The working table `contri_df` of `_calculate_median_shap_df` when a
segment column is assigned: per input row, its (feature, segment) key and its
shap value. -/
def medianRows {β : Type} (f : List (Option ℚ)) (s : List (Option β))
    (v : List ℚ) : List (Option (ℚ × β) × ℚ) :=
  ((f.zip s).zip v).map (fun r => (rowKey r.1, r.2))

/-- `_calculate_median_shap_df(feature_col, data_df, shap_value_df, segment_col)`
with a segment column assigned: `contri_df.groupby([feature_col, segment_col]).median()`,
rows listed ascending by group key. -/
def calculateMedianShapDf {β : Type} [DecidableEq β] (leB : β → β → Bool)
    (f : List (Option ℚ)) (s : List (Option β)) (v : List ℚ) :
    List ((ℚ × β) × ℚ) :=
  groupMedian (pairLe leB) (medianRows f s v)

/-- `_calculate_median_shap_df(feature_col, data_df, shap_value_df)` without a
segment column: `contri_df.groupby([feature_col]).median()`. -/
def calculateMedianShapDfNoSeg (f : List (Option ℚ)) (v : List ℚ) :
    List (ℚ × ℚ) :=
  groupMedian ratLe (f.zip v)

/-!
## `_color_by_segment_col` (plot_utils.py lines 262-283)
-/

/-- An RGB color with rational channels, as matplotlib stores palette
entries. -/
structure Color where
  r : ℚ
  g : ℚ
  b : ℚ
deriving DecidableEq

/-- `matplotlib.cm.get_cmap("Set1").colors`: the 9 colors of the Set1
qualitative colormap (each channel is a byte value divided by 255). -/
def set1Colors : List Color :=
  [⟨228/255, 26/255, 28/255⟩,
   ⟨55/255, 126/255, 184/255⟩,
   ⟨77/255, 175/255, 74/255⟩,
   ⟨152/255, 78/255, 163/255⟩,
   ⟨255/255, 127/255, 0/255⟩,
   ⟨255/255, 255/255, 51/255⟩,
   ⟨166/255, 86/255, 40/255⟩,
   ⟨247/255, 129/255, 191/255⟩,
   ⟨153/255, 153/255, 153/255⟩]

/-- Lookup in a python dict modelled as an association list
(`color_dir[value]`); `none` is a KeyError. -/
def dirLookup {α : Type} [DecidableEq α] (d : List (α × Color)) (k : α) :
    Option Color :=
  (d.find? (fun p => decide (p.1 = k))).map Prod.snd

/-- The loop `for i, cat in enumerate(segment_col_df.unique()):
color_dir[cat] = cmap.colors[i]`, started at index `i`; `none` is the
IndexError raised when `i` runs past the 9 palette entries. -/
def buildColorDir {α : Type} : List α → Nat → Option (List (α × Color))
  | [], _ => some []
  | c :: cs, i =>
    match set1Colors.get? i, buildColorDir cs (i + 1) with
    | some col, some rest => some ((c, col) :: rest)
    | _, _ => none

/-- The comprehension `[color_dir[value] for value in segment_col_df]`;
`none` is a KeyError on some element. -/
def lookupAll {α : Type} [DecidableEq α] (d : List (α × Color)) :
    List α → Option (List Color)
  | [] => some []
  | v :: vs =>
    match dirLookup d v, lookupAll d vs with
    | some c, some cs => some (c :: cs)
    | _, _ => none

/-- `_color_by_segment_col(segment_col_df)`: assigns the next palette entry to
each distinct value in order of first appearance, then maps every row to its
value's color.  Returns `(color_col, color_dir)`; `none` is the IndexError
raised when the distinct values outnumber the 9 palette entries. -/
def colorBySegmentCol {α : Type} [DecidableEq α] (vals : List α) :
    Option (List Color × List (α × Color)) :=
  match buildColorDir (uniqueVals vals) 0 with
  | none => none
  | some dir =>
    match lookupAll dir vals with
    | some cols => some (cols, dir)
    | none => none

/-!
## `pd.qcut(data_df[segment_col], 4)` (plot_utils.py line 163)
-/

/-- Linear-interpolation quantile (numpy/pandas default) of an
ascending-sorted list at probability `j/4`: the fractional position is
`pos = j * (n - 1) / 4`, and the value interpolates between the sorted
entries at `⌊pos⌋` and `⌊pos⌋ + 1` with fraction `pos - ⌊pos⌋`
(written below with natural division and remainder by 4). -/
def quartileEdge (s : List ℚ) (j : Nat) : ℚ :=
  let t := j * (s.length - 1)
  let lo := s.getD (t / 4) 0
  let hi := s.getD (t / 4 + 1) lo
  lo + (((t % 4 : Nat) : ℚ) / 4) * (hi - lo)

/-- The five quartile bin edges `pd.qcut` computes: the 0, 25, 50, 75 and 100
percent quantiles of the column. -/
def qcutEdges (vals : List ℚ) : List ℚ :=
  let s := sortBy ratLe vals
  [0, 1, 2, 3, 4].map (fun j => quartileEdge s j)

/-- Bucket number (1-4) of a value, given the five bin edges: bins are
right-closed, and `include_lowest` puts the minimum into bucket 1. -/
def bucketOf (e : List ℚ) (v : ℚ) : Nat :=
  if v ≤ e.getD 1 0 then 1
  else if v ≤ e.getD 2 0 then 2
  else if v ≤ e.getD 3 0 then 3
  else 4

/-- `pd.qcut` refuses duplicated bin edges (default `duplicates="raise"`). -/
def edgesDistinct (e : List ℚ) : Bool :=
  (uniqueVals e).length == e.length

/-- `pd.qcut(vals, 4)` reported as bucket numbers 1-4; `none` is the
ValueError raised when the computed bin edges are not unique. -/
def qcut4 (vals : List ℚ) : Option (List Nat) :=
  let e := qcutEdges vals
  if edgesDistinct e then some (vals.map (bucketOf e)) else none

/-- `pd.qcut(vals, 4)` reported as the pandas Interval labels (lo, hi] the
categorical actually carries (the values `_color_by_segment_col` receives
as `segment_col_cat`). -/
def qcutLabels (vals : List ℚ) : Option (List PyVal) :=
  let e := qcutEdges vals
  if edgesDistinct e then
    some (vals.map (fun v =>
      PyVal.interval (e.getD (bucketOf e v - 1) 0) (e.getD (bucketOf e v) 0)))
  else none

/-!
## `plot_shap_dependence_plot_by_segment` with a numeric segment column
(plot_utils.py lines 148-206 and `_plot_median` lines 286-340)

For `segment_col in numeric_cols` the scatter colors come from
`_color_by_segment_col(pd.qcut(data_df[segment_col], 4))`, keyed by quartile
Interval labels, while `_calculate_median_shap_df` receives the raw column
and groups by raw values.  With `plot_median_line = True`, `_plot_median`
then evaluates `color_dir[cur_cate]` for every `cur_cate` in
`median_shap_df[segment_col].unique()`. -/
def medianLineColors (f seg shap : List ℚ) : Option (List Color) :=
  match qcutLabels seg with
  | none => none
  | some labels =>
    match colorBySegmentCol labels with
    | none => none
    | some (_, dir) =>
      let mdf := calculateMedianShapDf ratLe (f.map some) (seg.map some) shap
      lookupAll dir ((uniqueVals (mdf.map (fun r => r.1.2))).map PyVal.num)

/-!
## `plot_shap_dependence_plot_with_interaction` (plot_utils.py lines 45-109)
and the demo callbacks (demo.py lines 306-376)
-/

/-- A pandas DataFrame restricted to what the renderer touches: named numeric
columns. -/
structure DataFrame where
  cols : List (String × List ℚ)
deriving DecidableEq

/-- `df[c]`: `none` is the KeyError pandas raises, carrying the column
name. -/
def DataFrame.getCol (df : DataFrame) (c : String) : Option (List ℚ) :=
  (df.cols.find? (fun p => decide (p.1 = c))).map Prod.snd

/-- The failure a render call surfaces: the KeyError raised by a column
lookup, carrying the offending column name. -/
inductive RenderError where
  | keyError (col : String)
deriving DecidableEq

/-- The composed figure the renderer leaves on the canvas: the scatter data
and the median table backing the optional median line. -/
structure RenderImage where
  scatterX : List ℚ
  scatterY : List ℚ
  medianTable : List (ℚ × ℚ)
deriving DecidableEq

/-- `plot_shap_dependence_plot_with_interaction(feature_col, shap_value_df, data_df, ...)`:
`_calculate_median_shap_df` evaluates `data_df[feature_col]` and then
`shap_value_df[feature_col]` before anything is drawn, so a missing feature
column raises KeyError(feature_col) and no image is produced. -/
def renderWithInteraction (featureCol : String) (shapDf dataDf : DataFrame) :
    Except RenderError RenderImage :=
  match dataDf.getCol featureCol with
  | none => .error (.keyError featureCol)
  | some xs =>
    match shapDf.getCol featureCol with
    | none => .error (.keyError featureCol)
    | some ys =>
      .ok { scatterX := xs
            scatterY := ys
            medianTable := calculateMedianShapDfNoSeg (xs.map some) ys }

/-- The tab-2 callback `_generate_pdp_plot` (demo.py lines 334-348): a falsy
`feature_name` skips the render entirely (the function body is guarded by
`if feature_name:`), otherwise the renderer runs on the current control
values. -/
def generatePdpPlot (featureName : Option String) (shapDf dataDf : DataFrame) :
    Option (Except RenderError RenderImage) :=
  match featureName with
  | none => none
  | some f => some (renderWithInteraction f shapDf dataDf)

/-- Parameters of `plot_shap_dependence_plot_by_segment` that have no default
value (plot_utils.py lines 112-123); python requires every one of them to be
bound at each call. -/
def bySegmentRequiredParams : List String :=
  ["params", "feature_col", "shap_value_df", "data_df"]

/-- The keyword arguments `_generate_pdp_plot_by_segment` supplies when it
invokes `plot_shap_dependence_plot_by_segment` (demo.py lines 364-370). -/
def tab3CallKeywords : List String :=
  ["feature_col", "shap_value_df", "data_df", "segment_col", "plot_median_line"]

/-- Python call binding: a call raises TypeError unless every required
parameter is bound by a supplied argument. -/
def callBinds (required supplied : List String) : Bool :=
  required.all (fun p => supplied.contains p)

/-!
## Claims about the median aggregator
-/

set_option maxHeartbeats 4000000 in

/-!
## Claims about the renderer and the front end
-/

/-!
## Proofs of the specification claims
-/

theorem mem_uniqueVals {α : Type} [DecidableEq α] (l : List α) (a : α) :
    a ∈ uniqueVals l ↔ a ∈ l := by
  induction l with
  | nil => simp [uniqueVals]
  | cons x xs ih =>
    by_cases h : a = x
    · subst h; simp [uniqueVals]
    · simp [uniqueVals, List.mem_filter, ih, h]

theorem nodup_uniqueVals {α : Type} [DecidableEq α] (l : List α) :
    (uniqueVals l).Nodup := by
  induction l with
  | nil => simp [uniqueVals]
  | cons x xs ih =>
    simp only [uniqueVals, List.nodup_cons]
    refine ⟨fun h => ?_, ih.filter _⟩
    have := (List.mem_filter.mp h).2
    simp at this

theorem insertSorted_perm {α : Type} (le : α → α → Bool) (x : α) (l : List α) :
    List.Perm (insertSorted le x l) (x :: l) := by
  induction l with
  | nil => simp [insertSorted]
  | cons y ys ih =>
    unfold insertSorted
    by_cases h : le x y
    · simp [h]
    · simp only [h, Bool.false_eq_true, if_false]
      exact ((ih.cons y).trans (List.Perm.swap x y ys))

theorem sortBy_perm {α : Type} (le : α → α → Bool) (l : List α) :
    List.Perm (sortBy le l) l := by
  induction l with
  | nil => simp [sortBy]
  | cons x xs ih =>
    have h : sortBy le (x :: xs) = insertSorted le x (sortBy le xs) := rfl
    rw [h]
    exact (insertSorted_perm le x (sortBy le xs)).trans (ih.cons x)

theorem mem_sortBy {α : Type} (le : α → α → Bool) (l : List α) (a : α) :
    a ∈ sortBy le l ↔ a ∈ l :=
  (sortBy_perm le l).mem_iff

theorem nodup_sortBy {α : Type} (le : α → α → Bool) (l : List α)
    (h : l.Nodup) : (sortBy le l).Nodup :=
  ((sortBy_perm le l).nodup_iff).mpr h

theorem median_singleton (x : ℚ) : median [x] = x := by
  simp [median, sortBy, insertSorted]

theorem groupMedian_keys {κ : Type} [DecidableEq κ] (le : κ → κ → Bool)
    (rows : List (Option κ × ℚ)) :
    (groupMedian le rows).map Prod.fst
      = sortBy le (uniqueVals (rows.filterMap Prod.fst)) := by
  simp [groupMedian, List.map_map, Function.comp_def]

theorem mem_groupMedian_keys {κ : Type} [DecidableEq κ] (le : κ → κ → Bool)
    (rows : List (Option κ × ℚ)) (k : κ) :
    k ∈ (groupMedian le rows).map Prod.fst ↔ some k ∈ rows.map Prod.fst := by
  rw [groupMedian_keys, mem_sortBy, mem_uniqueVals, List.mem_filterMap]
  constructor
  · rintro ⟨r, hr, hk⟩
    exact List.mem_map.mpr ⟨r, hr, hk⟩
  · intro h
    obtain ⟨r, hr, hk⟩ := List.mem_map.mp h
    exact ⟨r, hr, hk⟩

theorem nodup_groupMedian_keys {κ : Type} [DecidableEq κ] (le : κ → κ → Bool)
    (rows : List (Option κ × ℚ)) :
    ((groupMedian le rows).map Prod.fst).Nodup := by
  rw [groupMedian_keys]
  exact nodup_sortBy _ _ (nodup_uniqueVals _)

theorem groupMedian_value {κ : Type} [DecidableEq κ] (le : κ → κ → Bool)
    (rows : List (Option κ × ℚ)) (p : κ × ℚ) (hp : p ∈ groupMedian le rows) :
    p.2 = median ((rows.filter (fun r => decide (r.1 = some p.1))).map Prod.snd) := by
  obtain ⟨k, _, hk⟩ := List.mem_map.mp hp
  rw [← hk]

/-!
## Helper lemmas about the colorizer
-/

theorem buildColorDir_parts {α : Type} :
    ∀ (cs : List α) (i : Nat) (d : List (α × Color)),
      buildColorDir cs i = some d →
      d.map Prod.fst = cs ∧ d.map Prod.snd = (set1Colors.drop i).take cs.length := by
  intro cs
  induction cs with
  | nil =>
    intro i d h
    simp only [buildColorDir] at h
    cases h
    simp
  | cons c cs ih =>
    intro i d h
    simp only [buildColorDir] at h
    cases hg : set1Colors.get? i with
    | none => rw [hg] at h; cases h
    | some col =>
      rw [hg] at h
      cases hb : buildColorDir cs (i + 1) with
      | none => rw [hb] at h; cases h
      | some rest =>
        rw [hb] at h
        obtain ⟨hfst, hsnd⟩ := ih (i + 1) rest hb
        have hlt : i < set1Colors.length := by
          by_contra hge
          rw [List.get?_eq_none.mpr (Nat.le_of_not_lt hge)] at hg
          cases hg
        have hget : set1Colors[i] = col := by
          have h1 := List.get?_eq_get hlt
          rw [h1] at hg
          have h2 := Option.some.inj hg
          simpa [List.get_eq_getElem] using h2
        cases h
        constructor
        · simp [hfst]
        · simp only [List.map_cons, hsnd, List.length_cons]
          rw [List.drop_eq_getElem_cons hlt, hget, List.take_succ_cons]

theorem dirLookup_mem {α : Type} [DecidableEq α] :
    ∀ (d : List (α × Color)) (k : α), k ∈ d.map Prod.fst →
      ∃ c, dirLookup d k = some c := by
  intro d
  induction d with
  | nil => intro k h; simp at h
  | cons p ps ih =>
    intro k h
    by_cases hk : p.1 = k
    · exact ⟨p.2, by simp [dirLookup, List.find?, hk]⟩
    · have hmem : k ∈ ps.map Prod.fst := by
        rcases List.mem_map.mp h with ⟨q, hq, hqk⟩
        rcases List.mem_cons.mp hq with hq1 | hq2
        · have hpk : p.1 = k := by rw [← hq1]; exact hqk
          exact absurd hpk hk
        · exact hqk ▸ List.mem_map_of_mem Prod.fst hq2
      obtain ⟨c, hc⟩ := ih k hmem
      refine ⟨c, ?_⟩
      simp only [dirLookup, List.find?] at hc ⊢
      simp [hk, hc]

theorem lookupAll_total {α : Type} [DecidableEq α] :
    ∀ (vals : List α) (d : List (α × Color)),
      (∀ v, v ∈ vals → v ∈ d.map Prod.fst) →
      ∃ cs, lookupAll d vals = some cs := by
  intro vals
  induction vals with
  | nil => intro d _; exact ⟨[], rfl⟩
  | cons v vs ih =>
    intro d h
    obtain ⟨c, hc⟩ := dirLookup_mem d v (h v (List.mem_cons_self v vs))
    obtain ⟨cs, hcs⟩ := ih d (fun w hw => h w (List.mem_cons_of_mem v hw))
    exact ⟨c :: cs, by simp only [lookupAll, hc, hcs]⟩

theorem lookupAll_parts {α : Type} [DecidableEq α] :
    ∀ (vals : List α) (d : List (α × Color)) (cs : List Color),
      lookupAll d vals = some cs →
      cs.length = vals.length
      ∧ ∀ i (h1 : i < vals.length) (h2 : i < cs.length),
          dirLookup d (vals.get ⟨i, h1⟩) = some (cs.get ⟨i, h2⟩) := by
  intro vals
  induction vals with
  | nil =>
    intro d cs h
    simp only [lookupAll] at h
    cases h
    exact ⟨rfl, fun i h1 _ => absurd h1 (Nat.not_lt_zero i)⟩
  | cons v vs ih =>
    intro d cs h
    simp only [lookupAll] at h
    cases hv : dirLookup d v with
    | none => rw [hv] at h; cases h
    | some c =>
      rw [hv] at h
      cases hvs : lookupAll d vs with
      | none => rw [hvs] at h; cases h
      | some rest =>
        rw [hvs] at h
        cases h
        obtain ⟨hlen, hidx⟩ := ih d rest hvs
        refine ⟨by simp [hlen], fun i h1 h2 => ?_⟩
        cases i with
        | zero => simpa using hv
        | succ j =>
          have hj1 : j < vs.length := Nat.lt_of_succ_lt_succ h1
          have hj2 : j < rest.length := Nat.lt_of_succ_lt_succ h2
          simpa using hidx j hj1 hj2

theorem colorBySegmentCol_parts {α : Type} [DecidableEq α] :
    ∀ (vals : List α) (cols : List Color) (dir : List (α × Color)),
      colorBySegmentCol vals = some (cols, dir) →
      buildColorDir (uniqueVals vals) 0 = some dir ∧ lookupAll dir vals = some cols := by
  intro vals cols dir h
  unfold colorBySegmentCol at h
  cases hb : buildColorDir (uniqueVals vals) 0 with
  | none => rw [hb] at h; cases h
  | some d =>
    rw [hb] at h
    dsimp only at h
    cases hl : lookupAll d vals with
    | none => rw [hl] at h; cases h
    | some cs =>
      rw [hl] at h
      dsimp only at h
      cases h
      exact ⟨rfl, hl⟩

theorem buildColorDir_total {α : Type} :
    ∀ (cs : List α) (i : Nat), i + cs.length ≤ set1Colors.length →
      ∃ d, buildColorDir cs i = some d := by
  intro cs
  induction cs with
  | nil => intro i _; exact ⟨[], rfl⟩
  | cons c cs ih =>
    intro i h
    have hlt : i < set1Colors.length := by
      simp only [List.length_cons] at h
      omega
    obtain ⟨rest, hrest⟩ := ih (i + 1) (by simp only [List.length_cons] at h; omega)
    refine ⟨(c, set1Colors.get ⟨i, hlt⟩) :: rest, ?_⟩
    simp only [buildColorDir, List.get?_eq_get hlt, hrest]

theorem buildColorDir_overflow {α : Type} :
    ∀ (cs : List α) (c : α) (i : Nat), set1Colors.length < i + cs.length + 1 →
      buildColorDir (c :: cs) i = none := by
  intro cs
  induction cs with
  | nil =>
    intro c i h
    have hnone : set1Colors.get? i = none :=
      List.get?_eq_none.mpr (by simp at h; omega)
    simp only [buildColorDir, hnone]
  | cons c2 cs ih =>
    intro c i h
    rw [buildColorDir, ih c2 (i + 1) (by simp only [List.length_cons] at h ⊢; omega)]
    cases set1Colors.get? i <;> rfl

theorem set1Colors_nodup : set1Colors.Nodup := by
  norm_num [set1Colors, List.nodup_cons, Color.mk.injEq]

/-- C5: `_color_by_segment_col` assigns palette entries to the distinct labels
in order of first appearance (its dict keys are the first-seen-ordered
distinct labels and its values are the leading palette entries in order), and
maps every row to its label's assigned color; in particular on
["A", "B", "A", "C"] the dict has exactly the three entries A, B, C in
first-seen order and the per-row colors are the labels' assigned colors. -/
theorem assign_colors_first_seen_order :
    (∀ (vals : List String) (cols : List Color) (dir : List (String × Color)),
      colorBySegmentCol vals = some (cols, dir) →
      dir.map Prod.fst = uniqueVals vals
      ∧ dir.map Prod.snd = set1Colors.take (uniqueVals vals).length
      ∧ cols.length = vals.length
      ∧ ∀ i (h1 : i < vals.length) (h2 : i < cols.length),
          dirLookup dir (vals.get ⟨i, h1⟩) = some (cols.get ⟨i, h2⟩))
    ∧ colorBySegmentCol ["A", "B", "A", "C"]
      = some ([set1Colors.getD 0 ⟨0, 0, 0⟩, set1Colors.getD 1 ⟨0, 0, 0⟩,
               set1Colors.getD 0 ⟨0, 0, 0⟩, set1Colors.getD 2 ⟨0, 0, 0⟩],
              [("A", set1Colors.getD 0 ⟨0, 0, 0⟩), ("B", set1Colors.getD 1 ⟨0, 0, 0⟩),
               ("C", set1Colors.getD 2 ⟨0, 0, 0⟩)]) := by
  constructor
  · intro vals cols dir h
    obtain ⟨hb, hl⟩ := colorBySegmentCol_parts vals cols dir h
    obtain ⟨hfst, hsnd⟩ := buildColorDir_parts (uniqueVals vals) 0 dir hb
    obtain ⟨hlen, hidx⟩ := lookupAll_parts vals dir cols hl
    exact ⟨hfst, by simpa using hsnd, hlen, hidx⟩
  · simp [colorBySegmentCol, uniqueVals, buildColorDir, lookupAll, dirLookup,
      set1Colors, List.find?]

/-- C5 witness: the general statement applied to the scenario input
["A", "B", "A", "C"], reading off the dict keys, the dict values, the row
count, and the color of row 0. -/
theorem assign_colors_first_seen_order_witness :
    ([("A", set1Colors.getD 0 ⟨0, 0, 0⟩), ("B", set1Colors.getD 1 ⟨0, 0, 0⟩),
      ("C", set1Colors.getD 2 ⟨0, 0, 0⟩)].map Prod.fst
        = uniqueVals ["A", "B", "A", "C"])
    ∧ ([("A", set1Colors.getD 0 ⟨0, 0, 0⟩), ("B", set1Colors.getD 1 ⟨0, 0, 0⟩),
        ("C", set1Colors.getD 2 ⟨0, 0, 0⟩)].map Prod.snd
        = set1Colors.take (uniqueVals ["A", "B", "A", "C"]).length)
    ∧ ([set1Colors.getD 0 ⟨0, 0, 0⟩, set1Colors.getD 1 ⟨0, 0, 0⟩,
        set1Colors.getD 0 ⟨0, 0, 0⟩, set1Colors.getD 2 ⟨0, 0, 0⟩].length
        = (["A", "B", "A", "C"] : List String).length)
    ∧ dirLookup [("A", set1Colors.getD 0 ⟨0, 0, 0⟩), ("B", set1Colors.getD 1 ⟨0, 0, 0⟩),
        ("C", set1Colors.getD 2 ⟨0, 0, 0⟩)] "A" = some (set1Colors.getD 0 ⟨0, 0, 0⟩) := by
  have h := assign_colors_first_seen_order.1 _ _ _ assign_colors_first_seen_order.2
  exact ⟨h.1, h.2.1, h.2.2.1, h.2.2.2 0 (by decide) (by decide)⟩

/-- C6: the colorizer is deterministic — two calls on label sequences with
the same first-seen-ordered distinct labels produce the same label-to-color
dict, and two calls on the same full sequence produce the same per-row color
list (and dict). -/
theorem assign_colors_deterministic :
    (∀ (s1 s2 : List String) (c1 : List Color) (d1 : List (String × Color))
        (c2 : List Color) (d2 : List (String × Color)),
      uniqueVals s1 = uniqueVals s2 →
      colorBySegmentCol s1 = some (c1, d1) →
      colorBySegmentCol s2 = some (c2, d2) → d1 = d2)
    ∧ (∀ (s1 s2 : List String) (c1 : List Color) (d1 : List (String × Color))
        (c2 : List Color) (d2 : List (String × Color)),
      s1 = s2 →
      colorBySegmentCol s1 = some (c1, d1) →
      colorBySegmentCol s2 = some (c2, d2) → c1 = c2 ∧ d1 = d2) := by
  constructor
  · intro s1 s2 c1 d1 c2 d2 hu h1 h2
    have hb1 := (colorBySegmentCol_parts s1 c1 d1 h1).1
    have hb2 := (colorBySegmentCol_parts s2 c2 d2 h2).1
    rw [hu] at hb1
    rw [hb1] at hb2
    exact Option.some.inj hb2
  · intro s1 s2 c1 d1 c2 d2 hs h1 h2
    subst hs
    rw [h1] at h2
    have := Option.some.inj h2
    exact ⟨congrArg Prod.fst this, congrArg Prod.snd this⟩

/-- C6 witness: ["A"] and ["A", "A"] have the same first-seen distinct
labels, and the theorem yields that their label-to-color dicts agree. -/
theorem assign_colors_deterministic_witness :
    uniqueVals ["A"] = uniqueVals ["A", "A"]
    ∧ ([("A", set1Colors.getD 0 ⟨0, 0, 0⟩)] : List (String × Color))
      = [("A", set1Colors.getD 0 ⟨0, 0, 0⟩)] :=
  ⟨by decide,
   assign_colors_deterministic.1 ["A"] ["A", "A"]
     [set1Colors.getD 0 ⟨0, 0, 0⟩] [("A", set1Colors.getD 0 ⟨0, 0, 0⟩)]
     [set1Colors.getD 0 ⟨0, 0, 0⟩, set1Colors.getD 0 ⟨0, 0, 0⟩]
     [("A", set1Colors.getD 0 ⟨0, 0, 0⟩)] (by decide)
     (by simp [colorBySegmentCol, uniqueVals, buildColorDir, lookupAll,
       dirLookup, set1Colors, List.find?])
     (by simp [colorBySegmentCol, uniqueVals, buildColorDir, lookupAll,
       dirLookup, set1Colors, List.find?])⟩

/-- C9: the palette is the fixed 9-entry Set1 colormap indexed with no bounds
guard: every label sequence with at most 9 distinct labels succeeds with an
injective label-to-color dict, and every sequence with 10 or more distinct
labels fails with an out-of-range palette access. -/
theorem palette_nine_and_bounds :
    set1Colors.length = 9
    ∧ (∀ vals : List String, (uniqueVals vals).length ≤ 9 →
        ∃ cols dir, colorBySegmentCol vals = some (cols, dir)
          ∧ ∀ p, p ∈ dir → ∀ q, q ∈ dir → p.2 = q.2 → p.1 = q.1)
    ∧ (∀ vals : List String, 10 ≤ (uniqueVals vals).length →
        colorBySegmentCol vals = none) := by
  refine ⟨rfl, ?_, ?_⟩
  · intro vals hcard
    obtain ⟨d, hd⟩ := buildColorDir_total (uniqueVals vals) 0
      (by have h9 : set1Colors.length = 9 := rfl; omega)
    obtain ⟨hfst, hsnd⟩ := buildColorDir_parts (uniqueVals vals) 0 d hd
    obtain ⟨cs, hcs⟩ := lookupAll_total vals d
      (fun v hv => by rw [hfst, mem_uniqueVals]; exact hv)
    refine ⟨cs, d, ?_, ?_⟩
    · unfold colorBySegmentCol
      rw [hd]
      dsimp only
      rw [hcs]
    · intro p hp q hq hpq
      have hnodup : (d.map Prod.snd).Nodup := by
        rw [hsnd]
        exact set1Colors_nodup.sublist
          ((List.take_sublist _ _).trans (List.drop_sublist _ _))
      have := List.inj_on_of_nodup_map hnodup hp hq hpq
      rw [this]
  · intro vals hcard
    unfold colorBySegmentCol
    cases hu : uniqueVals vals with
    | nil => rw [hu] at hcard; simp at hcard
    | cons c cs =>
      have hlen : (uniqueVals vals).length = cs.length + 1 := by rw [hu]; rfl
      have h9 : set1Colors.length = 9 := rfl
      rw [buildColorDir_overflow cs c 0 (by omega)]

/-- C9 witness: a single label succeeds (with an injective dict), and ten
distinct labels crash the palette lookup. -/
theorem palette_nine_and_bounds_witness :
    (∃ cols dir, colorBySegmentCol ["a"] = some (cols, dir)
      ∧ ∀ p, p ∈ dir → ∀ q, q ∈ dir → p.2 = q.2 → p.1 = q.1)
    ∧ colorBySegmentCol ["l0", "l1", "l2", "l3", "l4", "l5", "l6", "l7", "l8", "l9"]
      = none :=
  ⟨palette_nine_and_bounds.2.1 ["a"] (by decide),
   palette_nine_and_bounds.2.2 ["l0", "l1", "l2", "l3", "l4", "l5", "l6", "l7", "l8", "l9"]
     (by decide)⟩

/-- C2: `_calculate_median_shap_df` with a segment column returns exactly one
row per distinct present (feature value, segment label) pair — its key column
has no duplicates and a key appears exactly when the pair occurs in the
working table — and each returned row carries the median of the shap values
of exactly the working-table rows keyed by that pair; in particular on the
dataset x = [1, 1, 2], y = [A, A, B], shap = [0.2, 0.4, -0.1] it returns
[((1, A), 0.3), ((2, B), -0.1)]. -/
theorem calculate_median_one_row_per_group :
    (∀ (f : List (Option ℚ)) (s : List (Option String)) (v : List ℚ),
      ((calculateMedianShapDf strLe f s v).map Prod.fst).Nodup
      ∧ (∀ k : ℚ × String,
          k ∈ (calculateMedianShapDf strLe f s v).map Prod.fst ↔
            some k ∈ (medianRows f s v).map Prod.fst)
      ∧ (∀ p, p ∈ calculateMedianShapDf strLe f s v →
          p.2 = median (((medianRows f s v).filter
            (fun r => decide (r.1 = some p.1))).map Prod.snd)))
    ∧ calculateMedianShapDf strLe [some 1, some 1, some 2]
        [some "A", some "A", some "B"] [0.2, 0.4, -0.1]
      = [((1, "A"), 0.3), ((2, "B"), -0.1)] := by
  constructor
  · intro f s v
    exact ⟨nodup_groupMedian_keys (pairLe strLe) (medianRows f s v),
           fun k => mem_groupMedian_keys (pairLe strLe) (medianRows f s v) k,
           fun p hp => groupMedian_value (pairLe strLe) (medianRows f s v) p hp⟩
  · norm_num [calculateMedianShapDf, medianRows, rowKey, groupMedian,
      uniqueVals, sortBy, insertSorted, pairLe, strLe, charListLe, median]

/-- C2 witness: the general statement applied to the scenario dataset and its
first output row — the row ((1, A), 0.3) indeed carries the median of the
shap values of the rows keyed (1, A). -/
theorem calculate_median_one_row_per_group_witness :
    ((((1 : ℚ), "A"), (0.3 : ℚ)) : (ℚ × String) × ℚ).2
      = median (((medianRows [some 1, some 1, some 2]
          [some "A", some "A", some "B"] [0.2, 0.4, -0.1]).filter
            (fun r => decide (r.1 = some ((((1 : ℚ), "A"), (0.3 : ℚ)) :
              (ℚ × String) × ℚ).1))).map Prod.snd) :=
  (calculate_median_one_row_per_group.1 _ _ _).2.2 ((1, "A"), 0.3)
    (by rw [calculate_median_one_row_per_group.2]; simp)

/-- C7: `_calculate_median_shap_df` on an empty dataset returns the empty
aggregate table (with and without a segment column), and a feature value
matched by exactly one row appears in the output paired with that single
row's shap value as its median — in both cases no error is raised (the
embedded function is total). -/
theorem calculate_median_empty_and_singleton :
    (calculateMedianShapDfNoSeg [] [] = []
      ∧ calculateMedianShapDf strLe [] [] [] = [])
    ∧ ∀ (f : List (Option ℚ)) (v : List ℚ) (k x : ℚ),
        (f.zip v).filter (fun r => decide (r.1 = some k)) = [(some k, x)] →
        (k, x) ∈ calculateMedianShapDfNoSeg f v := by
  refine ⟨⟨rfl, rfl⟩, ?_⟩
  intro f v k x h
  have hmem : (some k, x) ∈ f.zip v := by
    have hx : ((some k, x) : Option ℚ × ℚ)
        ∈ (f.zip v).filter (fun r => decide (r.1 = some k)) := by
      rw [h]; exact List.mem_singleton_self _
    exact List.mem_of_mem_filter hx
  have hk : k ∈ sortBy ratLe (uniqueVals ((f.zip v).filterMap Prod.fst)) := by
    rw [mem_sortBy, mem_uniqueVals, List.mem_filterMap]
    exact ⟨(some k, x), hmem, rfl⟩
  have hin : (k, median (((f.zip v).filter
      (fun r => decide (r.1 = some k))).map Prod.snd))
      ∈ calculateMedianShapDfNoSeg f v := by
    unfold calculateMedianShapDfNoSeg groupMedian
    exact List.mem_map.mpr ⟨k, hk, rfl⟩
  rw [h] at hin
  simpa [median_singleton] using hin

/-- C7 witness: on the one-row dataset f = [5], shap = [7], the feature value
5 appears once and its group's median is 7. -/
theorem calculate_median_empty_and_singleton_witness :
    ((5 : ℚ), (7 : ℚ)) ∈ calculateMedianShapDfNoSeg [some 5] [7] :=
  calculate_median_empty_and_singleton.2 [some 5] [7] 5 7 (by simp)

theorem filterMap_fst_filter_isSome {κ : Type} :
    ∀ rows : List (Option κ × ℚ),
      (rows.filter (fun r => r.1.isSome)).filterMap Prod.fst
        = rows.filterMap Prod.fst := by
  intro rows
  induction rows with
  | nil => simp
  | cons r rs ih =>
    cases hr : r.1 with
    | none => simp [List.filter_cons, List.filterMap_cons, hr, ih]
    | some a => simp [List.filter_cons, List.filterMap_cons, hr, ih]

theorem filter_key_filter_isSome {κ : Type} [DecidableEq κ]
    (rows : List (Option κ × ℚ)) (k : κ) :
    (rows.filter (fun r => r.1.isSome)).filter (fun r => decide (r.1 = some k))
      = rows.filter (fun r => decide (r.1 = some k)) := by
  rw [List.filter_filter]
  apply List.filter_congr
  intro r _
  cases hr : r.1 <;> simp [hr]

theorem groupMedian_filter_isSome {κ : Type} [DecidableEq κ]
    (le : κ → κ → Bool) (rows : List (Option κ × ℚ)) :
    groupMedian le rows = groupMedian le (rows.filter (fun r => r.1.isSome)) := by
  unfold groupMedian
  rw [filterMap_fst_filter_isSome]
  apply List.map_congr_left
  intro k _
  rw [filter_key_filter_isSome rows k]

/-- C10: rows whose feature value or segment value is missing are silently
excluded from the aggregate table — the table equals the one computed from
only the rows with a present group key (so missing-keyed rows contribute to
no group's median), and every output row's key occurs as a present key of the
working table (no group keyed by a missing value appears). -/
theorem missing_rows_silently_excluded :
    ∀ (f : List (Option ℚ)) (s : List (Option String)) (v : List ℚ),
      calculateMedianShapDf strLe f s v
        = groupMedian (pairLe strLe)
            ((medianRows f s v).filter (fun r => r.1.isSome))
      ∧ ∀ p, p ∈ calculateMedianShapDf strLe f s v →
          some p.1 ∈ (medianRows f s v).map Prod.fst := by
  intro f s v
  constructor
  · exact groupMedian_filter_isSome (pairLe strLe) (medianRows f s v)
  · intro p hp
    have hmem : p.1 ∈ (calculateMedianShapDf strLe f s v).map Prod.fst :=
      List.mem_map_of_mem Prod.fst hp
    exact (mem_groupMedian_keys (pairLe strLe) (medianRows f s v) p.1).mp hmem

/-- C10 witness: on a dataset whose second row has a missing feature value,
the aggregate table equals the one computed from the present-keyed rows only,
and the single output key (1, A) occurs as a present key. -/
theorem missing_rows_silently_excluded_witness :
    calculateMedianShapDf strLe [some 1, none] [some "A", some "B"] [1/2, 3]
      = groupMedian (pairLe strLe)
          ((medianRows [some 1, none] [some "A", some "B"] [1/2, 3]).filter
            (fun r => r.1.isSome))
    ∧ some (((((1 : ℚ), "A"), (1/2 : ℚ)) : (ℚ × String) × ℚ)).1
        ∈ (medianRows [some 1, none] [some "A", some "B"] [1/2, 3]).map Prod.fst :=
  ⟨(missing_rows_silently_excluded [some 1, none] [some "A", some "B"] [1/2, 3]).1,
   (missing_rows_silently_excluded [some 1, none] [some "A", some "B"] [1/2, 3]).2
     (((1, "A"), 1/2))
     (by norm_num [calculateMedianShapDf, medianRows, rowKey, groupMedian,
       uniqueVals, sortBy, insertSorted, pairLe, strLe, charListLe, median])⟩

/-!
## Claims about quartile binning
-/

theorem bucketOf_mem (e : List ℚ) (v : ℚ) : bucketOf e v ∈ [1, 2, 3, 4] := by
  unfold bucketOf
  split
  · simp
  · split
    · simp
    · split
      · simp
      · simp

/-- C4 counterexample: the column [0, 1, 2, 2, 3, 4] has 6 rows and is not
constant, `pd.qcut(..., 4)` succeeds on it, yet bucket 3 receives no row —
the labels are [1, 1, 2, 2, 4, 4] — refuting that every bucket is non-empty
whenever N ≥ 4 and the values are not all identical. -/
theorem qcut_empty_bucket_cex :
    (([0, 1, 2, 2, 3, 4] : List ℚ).length ≥ 4)
    ∧ (uniqueVals ([0, 1, 2, 2, 3, 4] : List ℚ)).length ≠ 1
    ∧ qcut4 [0, 1, 2, 2, 3, 4] = some [1, 1, 2, 2, 4, 4]
    ∧ (3 : Nat) ∉ [1, 1, 2, 2, 4, 4] := by
  refine ⟨by norm_num, by norm_num [uniqueVals], ?_, by decide⟩
  norm_num [qcut4, qcutEdges, quartileEdge, sortBy, insertSorted, ratLe,
    edgesDistinct, uniqueVals, bucketOf]

/-- C4 (amended): whenever `pd.qcut(..., 4)` succeeds, it assigns each row
one of the buckets 1-4, hence at most 4 distinct bucket labels; it fails with
an error when the computed quantile edges coincide (for example on
[1, 1, 1, 2]), and a bucket may be left empty even for a non-constant column
with at least 4 rows. -/
theorem qcut_at_most_four_buckets :
    (∀ (vals : List ℚ) (ls : List Nat), qcut4 vals = some ls →
      (uniqueVals ls).length ≤ 4 ∧ ∀ b, b ∈ ls → b ∈ [1, 2, 3, 4])
    ∧ qcut4 [1, 1, 1, 2] = none := by
  constructor
  · intro vals ls h
    simp only [qcut4] at h
    split at h
    · have hls : ls = vals.map (bucketOf (qcutEdges vals)) :=
        (Option.some.inj h).symm
      have hmem : ∀ b, b ∈ ls → b ∈ [1, 2, 3, 4] := by
        intro b hb
        rw [hls] at hb
        obtain ⟨v, _, hv⟩ := List.mem_map.mp hb
        exact hv ▸ bucketOf_mem (qcutEdges vals) v
      refine ⟨?_, hmem⟩
      have hsub : uniqueVals ls ⊆ [1, 2, 3, 4] :=
        fun b hb => hmem b ((mem_uniqueVals ls b).mp hb)
      simpa using (List.subperm_of_subset (nodup_uniqueVals ls) hsub).length_le
    · cases h
  · norm_num [qcut4, qcutEdges, quartileEdge, sortBy, insertSorted, ratLe,
      edgesDistinct, uniqueVals, bucketOf]

/-- C4 witness: the amended statement applied to the successful binning of
[0, 1, 2, 2, 3, 4]. -/
theorem qcut_at_most_four_buckets_witness :
    (uniqueVals [1, 1, 2, 2, 4, 4]).length ≤ 4
    ∧ ∀ b, b ∈ [1, 1, 2, 2, 4, 4] → b ∈ [1, 2, 3, 4] :=
  qcut_at_most_four_buckets.1 [0, 1, 2, 2, 3, 4] [1, 1, 2, 2, 4, 4]
    (by norm_num [qcut4, qcutEdges, quartileEdge, sortBy, insertSorted, ratLe,
      edgesDistinct, uniqueVals, bucketOf])

/-!
## Claim C1: the two segmentation paths of the by-segment plot
-/

set_option maxHeartbeats 1000000 in
theorem qcutLabels_zero_to_five :
    qcutLabels [0, 1, 2, 3, 4, 5] = some
      [PyVal.interval 0 (5/4), PyVal.interval 0 (5/4),
       PyVal.interval (5/4) (5/2), PyVal.interval (5/2) (15/4),
       PyVal.interval (15/4) 5, PyVal.interval (15/4) 5] := by
  norm_num [qcutLabels, qcutEdges, quartileEdge, sortBy, insertSorted, ratLe,
    edgesDistinct, uniqueVals, bucketOf]

set_option maxHeartbeats 1000000 in
theorem colorDir_of_interval_labels :
    colorBySegmentCol
      [PyVal.interval 0 (5/4), PyVal.interval 0 (5/4),
       PyVal.interval (5/4) (5/2), PyVal.interval (5/2) (15/4),
       PyVal.interval (15/4) 5, PyVal.interval (15/4) 5]
    = some ([set1Colors.getD 0 ⟨0, 0, 0⟩, set1Colors.getD 0 ⟨0, 0, 0⟩,
             set1Colors.getD 1 ⟨0, 0, 0⟩, set1Colors.getD 2 ⟨0, 0, 0⟩,
             set1Colors.getD 3 ⟨0, 0, 0⟩, set1Colors.getD 3 ⟨0, 0, 0⟩],
            [(PyVal.interval 0 (5/4), set1Colors.getD 0 ⟨0, 0, 0⟩),
             (PyVal.interval (5/4) (5/2), set1Colors.getD 1 ⟨0, 0, 0⟩),
             (PyVal.interval (5/2) (15/4), set1Colors.getD 2 ⟨0, 0, 0⟩),
             (PyVal.interval (15/4) 5, set1Colors.getD 3 ⟨0, 0, 0⟩)]) := by
  norm_num [colorBySegmentCol, uniqueVals, buildColorDir, lookupAll, dirLookup,
    set1Colors, List.find?]

set_option maxHeartbeats 1000000 in
theorem median_df_of_raw_segment :
    calculateMedianShapDf ratLe ([10, 10, 10, 10, 10, 10].map some)
      ([0, 1, 2, 3, 4, 5].map some) [1, 2, 3, 4, 5, 6]
    = [((10, 0), 1), ((10, 1), 2), ((10, 2), 3),
       ((10, 3), 4), ((10, 4), 5), ((10, 5), 6)] := by
  norm_num [calculateMedianShapDf, medianRows, rowKey, groupMedian, uniqueVals,
    sortBy, insertSorted, pairLe, ratLe, median]

/-- C1: on a numeric segment column the two segmentation paths of
`plot_shap_dependence_plot_by_segment` disagree, refuting the invariant that
a continuous column is only ever segmented by its quartile bucket: with
segment column [0, 1, 2, 3, 4, 5] (feature constant 10), the median
aggregation groups by the six raw segment values, while `pd.qcut` produces
only four quartile buckets, so `_plot_median`'s per-category color lookup
`color_dir[cur_cate]` — raw values looked up in a dict keyed by quartile
Interval labels — raises KeyError (modelled as `none`). -/
theorem numeric_segment_median_groups_by_raw_value :
    (calculateMedianShapDf ratLe ([10, 10, 10, 10, 10, 10].map some)
        ([0, 1, 2, 3, 4, 5].map some) [1, 2, 3, 4, 5, 6]).map (fun r => r.1.2)
      = [0, 1, 2, 3, 4, 5]
    ∧ (qcutLabels [0, 1, 2, 3, 4, 5]).map (fun ls => (uniqueVals ls).length)
      = some 4
    ∧ medianLineColors [10, 10, 10, 10, 10, 10] [0, 1, 2, 3, 4, 5]
        [1, 2, 3, 4, 5, 6] = none := by
  refine ⟨?_, ?_, ?_⟩
  · rw [median_df_of_raw_segment]
    rfl
  · rw [qcutLabels_zero_to_five]
    norm_num [uniqueVals]
  · simp only [medianLineColors, qcutLabels_zero_to_five,
      colorDir_of_interval_labels, median_df_of_raw_segment]
    norm_num [uniqueVals]
    simp [lookupAll, dirLookup, List.find?]

/-- C3: calling the dependence-plot renderer with a feature column absent
from the attribution matrix fails with a RenderError (the KeyError of the
column lookup) naming that column, and no partial image is returned. -/
theorem render_missing_feature_col_key_error :
    ∀ (featureCol : String) (shapDf dataDf : DataFrame),
      shapDf.getCol featureCol = none →
      renderWithInteraction featureCol shapDf dataDf
        = .error (.keyError featureCol) := by
  intro c shapDf dataDf h
  unfold renderWithInteraction
  cases hd : dataDf.getCol c with
  | none => rfl
  | some xs =>
    dsimp only
    rw [h]

/-- C3 witness: rendering feature "y" against a table holding only column
"x" yields the KeyError naming "y". -/
theorem render_missing_feature_col_key_error_witness :
    DataFrame.getCol ⟨[("x", [1])]⟩ "y" = none
    ∧ renderWithInteraction "y" ⟨[("x", [1])]⟩ ⟨[("x", [1])]⟩
      = .error (.keyError "y") :=
  ⟨by simp [DataFrame.getCol, List.find?],
   render_missing_feature_col_key_error "y" ⟨[("x", [1])]⟩ ⟨[("x", [1])]⟩
     (by simp [DataFrame.getCol, List.find?])⟩

/-- C8: the tab-3 callback cannot publish any image — its call to
`plot_shap_dependence_plot_by_segment` never binds the function's required
`params` parameter, so python raises TypeError before the renderer runs,
refuting that every control change publishes the rendered image. -/
theorem demo_tab3_call_missing_required_param :
    callBinds bySegmentRequiredParams tab3CallKeywords = false
    ∧ "params" ∈ bySegmentRequiredParams
    ∧ "params" ∉ tab3CallKeywords := by
  decide

end DashShap
